import Mathlib

/-!
Verification development for the `api_t2sql` repository: a shallow embedding
of its resilient structured-output extraction core (`base/rag_core.py`), the
SQL agent state machine (`base/agent_core.py`) and the refinement loop
(`ignore/base_original/agent_runner.py`), together with proofs of the
behavioural claims made by the specification.

Python strings are embedded as `List Char`; Python exceptions are embedded
explicitly as `Except (List Char)` results, so that a `try/except` block in
the source becomes a `match` on an `Except` value and "never raises" is a
provable statement.  External collaborators (the unidecode library, the LLM,
the retriever, database cursors/connections) are injected as function
parameters, mirroring how the source receives them at construction time.
-/

set_option autoImplicit false

namespace T2Sql

/-! ## Python string primitives -/

/-- The ASCII whitespace characters recognized by Python's `str.strip()` and
by the `\s` regex class (space, tab, newline, carriage return, vertical tab,
form feed).  The source only ever strips LLM text already reduced to ASCII by
`unidecode`, so the non-ASCII spaces Python would also strip are irrelevant. -/
def pyIsWs (c : Char) : Bool :=
  c = ' ' || c = Char.ofNat 9 || c = Char.ofNat 10 || c = Char.ofNat 13 ||
  c = Char.ofNat 11 || c = Char.ofNat 12

/-- Python `str.strip()`: drop leading and trailing whitespace. -/
def pyStrip (s : List Char) : List Char :=
  ((s.dropWhile pyIsWs).reverse.dropWhile pyIsWs).reverse

/-- Python `str.upper()` (ASCII case mapping; inputs are unidecoded ASCII). -/
def pyUpper (s : List Char) : List Char :=
  s.map Char.toUpper

/-- Case-insensitive ASCII prefix test, used to embed `re.IGNORECASE`
literal matching. -/
def ciIsPre : List Char → List Char → Bool
  | [], _ => true
  | _ :: _, [] => false
  | p :: ps, c :: cs => (p.toUpper = c.toUpper) && ciIsPre ps cs

/-- Python `needle in haystack` substring test. -/
def containsSub : List Char → List Char → Bool
  | s, needle =>
    if needle.isPrefixOf s then true
    else match s with
      | [] => false
      | _ :: t => containsSub t needle

/-- Python `str.count(sub)`: number of non-overlapping occurrences, scanning
left to right (only used with non-empty `sub`). -/
def countSubAux (needle : List Char) : Nat → List Char → Nat
  | 0, _ => 0
  | _ + 1, [] => 0
  | fuel + 1, c :: t =>
    if needle.isPrefixOf (c :: t) && !needle.isEmpty then
      1 + countSubAux needle fuel ((c :: t).drop needle.length)
    else
      countSubAux needle fuel t

def countSub (s needle : List Char) : Nat :=
  countSubAux needle s.length s

/-- Python `str.replace(pat, rep)`: replace every non-overlapping occurrence,
scanning left to right (only used with non-empty `pat`). -/
def replaceAllAux (pat rep : List Char) : Nat → List Char → List Char
  | 0, s => s
  | _ + 1, [] => []
  | fuel + 1, c :: t =>
    if pat.isPrefixOf (c :: t) && !pat.isEmpty then
      rep ++ replaceAllAux pat rep fuel ((c :: t).drop pat.length)
    else
      c :: replaceAllAux pat rep fuel t

def replaceAll (s pat rep : List Char) : List Char :=
  replaceAllAux pat rep s.length s

/-- Model of Python's `list(set(xs))`: duplicates removed.  CPython's set
iteration order is unspecified, so the embedding fixes the first-occurrence
order; no specified behaviour depends on the order of this list. -/
def pySetList (l : List (List Char)) : List (List Char) :=
  l.foldl (fun acc x => if acc.contains x then acc else acc ++ [x]) []

/-- Named character constants (kept out of string literals for clarity). -/
def dquote : Char := Char.ofNat 34
def squote : Char := Char.ofNat 39
def lbrace : Char := Char.ofNat 123
def rbrace : Char := Char.ofNat 125
def lbrack : Char := Char.ofNat 91
def rbrack : Char := Char.ofNat 93
def bslash : Char := Char.ofNat 92

/-! ## JSON values and `json.loads`

The decoder follows Python's `json.loads` on the inputs the extractor feeds
it: strict strings (double quotes only, escapes, no raw control characters),
objects, arrays, `true`/`false`/`null`, numbers (exact decimal
mantissa/exponent representation instead of binary floats — no claim depends
on float rounding), and Python's non-standard `NaN`/`Infinity` literals.
Trailing non-whitespace input is an error (`Extra data`), as in Python. -/

inductive Json where
  | null : Json
  | bool (b : Bool) : Json
  | num (mantissa : Int) (exp10 : Int) : Json
  | str (s : List Char) : Json
  | arr (elems : List Json) : Json
  | obj (fields : List (List Char × Json)) : Json
  | inf (neg : Bool) : Json
  | nan : Json

/-- JSON-decoder whitespace (space, tab, newline, carriage return). -/
def jIsWs (c : Char) : Bool :=
  c = ' ' || c = Char.ofNat 9 || c = Char.ofNat 10 || c = Char.ofNat 13

def skipWsJ : List Char → List Char
  | [] => []
  | c :: t => if jIsWs c then skipWsJ t else c :: t

def hexVal (c : Char) : Option Nat :=
  if c.isDigit then some (c.toNat - 48)
  else if 'a' ≤ c && c ≤ 'f' then some (c.toNat - 87)
  else if 'A' ≤ c && c ≤ 'F' then some (c.toNat - 55)
  else none

def natFromDigits (ds : List Char) : Nat :=
  ds.foldl (fun acc c => acc * 10 + (c.toNat - 48)) 0

/-- Parse a JSON number starting at `cs` (which begins with `-` or a digit).
Returns the exact value as `mantissa × 10 ^ exp10` plus the rest of the
input.  Python's grammar: `-?(0|[1-9][0-9]*)(\.[0-9]+)?([eE][-+]?[0-9]+)?`. -/
def parseNumber (cs : List Char) : Except (List Char) (Json × List Char) :=
  let (neg, cs1) :=
    match cs with
    | c :: t => if c = '-' then (true, t) else (false, cs)
    | [] => (false, cs)
  match cs1 with
  | [] => .error ("Expecting value".data)
  | c :: t =>
    if c = '0' then
      parseNumberFrac neg [c] t
    else if c.isDigit then
      let ds := (c :: t).takeWhile Char.isDigit
      parseNumberFrac neg ds ((c :: t).drop ds.length)
    else .error ("Expecting value".data)
where
  parseNumberFrac (neg : Bool) (intPart : List Char) (rest : List Char) :
      Except (List Char) (Json × List Char) :=
    let (fracDigits, rest2) :=
      match rest with
      | c :: t =>
        if c = '.' then
          let fs := t.takeWhile Char.isDigit
          (fs, t.drop fs.length)
        else ([], rest)
      | [] => ([], rest)
    if rest.head? = some '.' && fracDigits.isEmpty then
      .error ("Expecting digits after decimal point".data)
    else
      let (expVal, expOk, rest3) :=
        match rest2 with
        | c :: t =>
          if c = 'e' || c = 'E' then
            let (esign, t2) :=
              match t with
              | c2 :: t2 =>
                if c2 = '+' then ((1 : Int), t2)
                else if c2 = '-' then ((-1 : Int), t2)
                else ((1 : Int), t)
              | [] => ((1 : Int), t)
            let es := t2.takeWhile Char.isDigit
            if es.isEmpty then ((0 : Int), false, rest2)
            else (esign * (natFromDigits es : Int), true, t2.drop es.length)
          else ((0 : Int), true, rest2)
        | [] => ((0 : Int), true, rest2)
      if !expOk then .error ("Expecting digits in exponent".data)
      else
        let mag : Int := (natFromDigits (intPart ++ fracDigits) : Int)
        let m : Int := if neg then -mag else mag
        .ok (Json.num m (expVal - (fracDigits.length : Int)), rest3)

/-- Match a fixed literal suffix (`rue` of `true`, etc.). -/
def expectLit (lit : List Char) (cs : List Char) (v : Json) :
    Except (List Char) (Json × List Char) :=
  if lit.isPrefixOf cs then .ok (v, cs.drop lit.length)
  else .error ("Expecting value".data)

mutual

/-- Parse one JSON value at the head of `cs` (leading whitespace already
skipped by the caller). -/
def parseValue : Nat → List Char → Except (List Char) (Json × List Char)
  | 0, _ => .error ("decoder recursion limit".data)
  | fuel + 1, cs =>
    match cs with
    | [] => .error ("Expecting value".data)
    | c :: t =>
      if c = dquote then
        match parseStr fuel t with
        | .ok (s, r) => .ok (Json.str s, r)
        | .error e => .error e
      else if c = lbrace then
        match skipWsJ t with
        | c2 :: t2 =>
          if c2 = rbrace then .ok (Json.obj [], t2)
          else parseMembers fuel (c2 :: t2) []
        | [] => .error ("Expecting property name".data)
      else if c = lbrack then
        match skipWsJ t with
        | c2 :: t2 =>
          if c2 = rbrack then .ok (Json.arr [], t2)
          else parseItems fuel (c2 :: t2) []
        | [] => .error ("Expecting value".data)
      else if c = 't' then expectLit ("rue".data) t (Json.bool true)
      else if c = 'f' then expectLit ("alse".data) t (Json.bool false)
      else if c = 'n' then expectLit ("ull".data) t Json.null
      else if c = 'N' then expectLit ("aN".data) t Json.nan
      else if c = 'I' then expectLit ("nfinity".data) t (Json.inf false)
      else if c = '-' && ("Infinity".data).isPrefixOf t then
        .ok (Json.inf true, t.drop 8)
      else if c = '-' || c.isDigit then parseNumber cs
      else .error ("Expecting value".data)

/-- Parse the members of an object, positioned at a property name. -/
def parseMembers : Nat → List Char → List (List Char × Json) →
    Except (List Char) (Json × List Char)
  | 0, _, _ => .error ("decoder recursion limit".data)
  | fuel + 1, cs, acc =>
    match cs with
    | c :: t =>
      if c = dquote then
        match parseStr fuel t with
        | .error e => .error e
        | .ok (key, r1) =>
          match skipWsJ r1 with
          | c2 :: t2 =>
            if c2 = ':' then
              match parseValue fuel (skipWsJ t2) with
              | .error e => .error e
              | .ok (v, r2) =>
                match skipWsJ r2 with
                | c3 :: t3 =>
                  if c3 = ',' then parseMembers fuel (skipWsJ t3) (acc ++ [(key, v)])
                  else if c3 = rbrace then .ok (Json.obj (acc ++ [(key, v)]), t3)
                  else .error ("Expecting delimiter".data)
                | [] => .error ("Expecting delimiter".data)
            else .error ("Expecting colon delimiter".data)
          | [] => .error ("Expecting colon delimiter".data)
      else .error ("Expecting property name".data)
    | [] => .error ("Expecting property name".data)

/-- Parse the elements of an array, positioned at an element. -/
def parseItems : Nat → List Char → List Json →
    Except (List Char) (Json × List Char)
  | 0, _, _ => .error ("decoder recursion limit".data)
  | fuel + 1, cs, acc =>
    match parseValue fuel cs with
    | .error e => .error e
    | .ok (v, r1) =>
      match skipWsJ r1 with
      | c2 :: t2 =>
        if c2 = ',' then parseItems fuel (skipWsJ t2) (acc ++ [v])
        else if c2 = rbrack then .ok (Json.arr (acc ++ [v]), t2)
        else .error ("Expecting delimiter".data)
      | [] => .error ("Expecting delimiter".data)

/-- Parse the body of a string literal (opening quote already consumed).
Raw control characters are rejected (Python's strict mode); the escapes
are the JSON ones.  A `\uXXXX` escape maps to the code point directly
(surrogate-pair recombination is not modelled; no claim exercises it). -/
def parseStr : Nat → List Char → Except (List Char) (List Char × List Char)
  | 0, _ => .error ("decoder recursion limit".data)
  | _ + 1, [] => .error ("Unterminated string".data)
  | fuel + 1, c :: t =>
    if c = dquote then .ok ([], t)
    else if c = bslash then
      match t with
      | [] => .error ("Unterminated string".data)
      | e :: t2 =>
        let esc : Except (List Char) (Char × List Char) :=
          if e = dquote then .ok (dquote, t2)
          else if e = bslash then .ok (bslash, t2)
          else if e = '/' then .ok ('/', t2)
          else if e = 'b' then .ok (Char.ofNat 8, t2)
          else if e = 'f' then .ok (Char.ofNat 12, t2)
          else if e = 'n' then .ok (Char.ofNat 10, t2)
          else if e = 'r' then .ok (Char.ofNat 13, t2)
          else if e = 't' then .ok (Char.ofNat 9, t2)
          else if e = 'u' then
            match t2 with
            | h1 :: h2 :: h3 :: h4 :: t3 =>
              match hexVal h1, hexVal h2, hexVal h3, hexVal h4 with
              | some a, some b, some c', some d =>
                .ok (Char.ofNat (((a * 16 + b) * 16 + c') * 16 + d), t3)
              | _, _, _, _ => .error ("Invalid \\uXXXX escape".data)
            | _ => .error ("Invalid \\uXXXX escape".data)
          else .error ("Invalid \\escape".data)
        match esc with
        | .error err => .error err
        | .ok (ch, rest) =>
          match parseStr fuel rest with
          | .error err => .error err
          | .ok (s, r) => .ok (ch :: s, r)
    else if c.toNat < 32 then .error ("Invalid control character".data)
    else
      match parseStr fuel t with
      | .error err => .error err
      | .ok (s, r) => .ok (c :: s, r)

end

/-- Embedding of `json.loads`: decode one value, then require only
whitespace to remain (otherwise Python raises `Extra data`). -/
def jsonLoads (cs : List Char) : Except (List Char) Json :=
  match parseValue (cs.length + 1) (skipWsJ cs) with
  | .error e => .error e
  | .ok (j, rest) =>
    if (skipWsJ rest).isEmpty then .ok j else .error ("Extra data".data)

/-- Key check on an object's field list (Python `key in dict`). -/
def hasKey (kvs : List (List Char × Json)) (k : List Char) : Bool :=
  kvs.any (fun kv => kv.1 = k)

/-- The two payload keys the extractor recognizes. -/
def sqlKey : List Char := "cau_lenh_sql_theo_yeu_cau_nghiep_vu".data
def tableKey : List Char := "danh_sach_bang_lien_quan".data

/-! ## Output Extractor (`base/rag_core.py`)

`extract_json_from_text` and its helpers.  The `unidecode.unidecode`
collaborator (third-party ASCII-transliteration library) is injected as the
function parameter `uni`. -/

/-- Embedding of `extract_table_names_from_sql`'s regex scan: all
non-overlapping matches of `FROM\s+([\w.]+)` (case-insensitive), returning
the captured groups in order.  `\w` is modelled as ASCII `[A-Za-z0-9_]`
(inputs have been reduced to ASCII by `unidecode`). -/
def isWordDot (c : Char) : Bool :=
  c.isAlphanum || c = '_' || c = '.'

/-- Try the pattern `FROM\s+([\w.]+)` anchored at the head of `cs`; on
success return the captured group and the rest of the input. -/
def tryFromAt (cs : List Char) : Option (List Char × List Char) :=
  if ciIsPre ("FROM".data) cs then
    let afterKw := cs.drop 4
    let ws := afterKw.takeWhile pyIsWs
    if ws.isEmpty then none
    else
      let r1 := afterKw.drop ws.length
      let word := r1.takeWhile isWordDot
      if word.isEmpty then none else some (word, r1.drop word.length)
  else none

def fromMatchesAux : Nat → List Char → List (List Char)
  | 0, _ => []
  | _ + 1, [] => []
  | fuel + 1, c :: t =>
    match tryFromAt (c :: t) with
    | some (cap, rest) => cap :: fromMatchesAux fuel rest
    | none => fromMatchesAux fuel t

/-- Embedding of `extract_table_names_from_sql`: scan for `FROM`-clause
table tokens, strip schema qualifiers (`match.split('.')[-1]`), exclude
clause keywords, upper-case, de-duplicate. -/
def extract_table_names_from_sql (sql_text : List Char) : List (List Char) :=
  let mats := fromMatchesAux sql_text.length sql_text
  let kw : List (List Char) := ["WHERE".data, "GROUP".data, "ORDER".data, "LIMIT".data]
  let tables := mats.foldl
    (fun acc m =>
      let table :=
        if m.contains '.' then ((m.splitOn '.').getLast?).getD []
        else m
      if !table.isEmpty && !(kw.contains (pyUpper table)) then
        acc ++ [pyUpper table]
      else acc)
    []
  pySetList tables

/-- Greedy match of the brace-block regex
`\{[^{}]*(?:\{[^{}]*\}[^{}]*)*\}` starting inside an opening brace:
alternating runs of non-brace characters and one-level-nested `{...}`
groups, closed by a final `}`.  Returns the matched characters (including
both braces) and the rest of the input. -/
def braceInner : Nat → List Char → List Char → Option (List Char × List Char)
  | 0, _, _ => none
  | fuel + 1, acc, cs =>
    let plain := cs.takeWhile (fun c => c ≠ lbrace && c ≠ rbrace)
    match cs.drop plain.length with
    | [] => none
    | c :: t =>
      if c = rbrace then some (acc ++ plain ++ [c], t)
      else
        let plain2 := t.takeWhile (fun c' => c' ≠ lbrace && c' ≠ rbrace)
        match t.drop plain2.length with
        | c2 :: t2 =>
          if c2 = rbrace then
            braceInner fuel (acc ++ plain ++ [c] ++ plain2 ++ [c2]) t2
          else none
        | [] => none

def braceMatch : List Char → Option (List Char × List Char)
  | [] => none
  | c :: t => if c = lbrace then braceInner (t.length + 1) [c] t else none

/-- All matches of the brace-block regex, scanning left to right,
non-overlapping (embedding of `re.findall` for that pattern). -/
def findBraceBlocksAux : Nat → List Char → List (List Char)
  | 0, _ => []
  | _ + 1, [] => []
  | fuel + 1, c :: t =>
    if c = lbrace then
      match braceMatch (c :: t) with
      | some (m, rest) => m :: findBraceBlocksAux fuel rest
      | none => findBraceBlocksAux fuel t
    else findBraceBlocksAux fuel t

def findBraceBlocks (cs : List Char) : List (List Char) :=
  findBraceBlocksAux cs.length cs

/-- Python `"k1" in parsed or "k2" in parsed` on a decoded JSON value:
key membership for a dict, element equality for a list, substring test for
a string; `none` models the `TypeError` Python raises for the other types
(caught by the surrounding `except`). -/
def pyInEitherKey (p : Json) : Option Bool :=
  match p with
  | .obj kvs => some (hasKey kvs sqlKey || hasKey kvs tableKey)
  | .arr xs =>
    some (xs.any (fun j => match j with | .str s => s = sqlKey || s = tableKey | _ => false))
  | .str s => some (containsSub s sqlKey || containsSub s tableKey)
  | _ => none

/-- The strategy-3 loop: try each brace block from last to first, keep the
first that decodes and mentions one of the expected keys; decode errors and
`TypeError`s are swallowed by the `except` clause. -/
def firstKeyed : List (List Char) → Option Json
  | [] => none
  | m :: rest =>
    match jsonLoads m with
    | .ok p =>
      match pyInEitherKey p with
      | some true => some p
      | _ => firstKeyed rest
    | .error _ => firstKeyed rest

/-- Terminator scan for the strategy-5 regex
`(SELECT\s+.*?(?:FROM|WHERE|GROUP BY|ORDER BY|LIMIT|;|$))` (lazy `.*?`,
`DOTALL`, `IGNORECASE`): returns the characters before the earliest
terminator and the terminator's own text (empty for `$`). -/
def scanTerm : Nat → List Char → (List Char × List Char)
  | 0, cs => (cs, [])
  | _ + 1, [] => ([], [])
  | fuel + 1, c :: t =>
    if ciIsPre ("FROM".data) (c :: t) then ([], (c :: t).take 4)
    else if ciIsPre ("WHERE".data) (c :: t) then ([], (c :: t).take 5)
    else if ciIsPre ("GROUP BY".data) (c :: t) then ([], (c :: t).take 8)
    else if ciIsPre ("ORDER BY".data) (c :: t) then ([], (c :: t).take 8)
    else if ciIsPre ("LIMIT".data) (c :: t) then ([], (c :: t).take 5)
    else if c = ';' then ([], [c])
    else
      let (b, tm) := scanTerm fuel t
      (c :: b, tm)

/-- Try the strategy-5 regex anchored at the head of `cs`: `SELECT` (case
insensitive) followed by at least one whitespace character, then the lazy
scan to the earliest terminator.  Since the text has been trimmed, `$` is
exactly end-of-input. -/
def trySelectAt (cs : List Char) : Option (List Char) :=
  if ciIsPre ("SELECT".data) cs then
    match cs.drop 6 with
    | w :: rest =>
      if pyIsWs w then
        let (body, tm) := scanTerm (rest.length + 1) rest
        some (cs.take 6 ++ [w] ++ body ++ tm)
      else none
    | [] => none
  else none

/-- Embedding of `re.search` for the strategy-5 pattern: the match at the
leftmost feasible start position. -/
def sqlSearchAux : Nat → List Char → Option (List Char)
  | 0, _ => none
  | _ + 1, [] => none
  | fuel + 1, c :: t =>
    match trySelectAt (c :: t) with
    | some m => some m
    | none => sqlSearchAux fuel t

def sqlSearch (cs : List Char) : Option (List Char) :=
  sqlSearchAux cs.length cs

/-- The normalization prefix of `extract_json_from_text`: transliterate via
the injected `unidecode` collaborator (`uni`), strip, remove markdown code
fences, strip again. -/
def normalizeText (uni : List Char → List Char) (text : List Char) : List Char :=
  let text := pyStrip (uni text)
  pyStrip (replaceAll (replaceAll text ("```json".data) []) ("```".data) [])

/-- Strategy 4 of `extract_json_from_text` (its fourth `try` block): when
targeting tables and the text mentions `SELECT`, recover table names from
the raw SQL; succeeds only when at least one name is found. -/
def tablesFromSqlStrategy (for_tables : Bool) (text : List Char) : Option Json :=
  if for_tables && containsSub (pyUpper text) ("SELECT".data) then
    let tables := extract_table_names_from_sql text
    if tables.isEmpty then none
    else some (Json.obj [(tableKey, Json.arr (tables.map Json.str))])
  else none

/-- Strategy 5 of `extract_json_from_text` (its fifth `try` block): when
targeting SQL, search for a raw `SELECT ...` clause, strip it, drop one
trailing semicolon, and wrap it under the SQL key. -/
def rawSqlStrategy (for_tables : Bool) (text : List Char) : Option Json :=
  if !for_tables then
    match sqlSearch text with
    | some m =>
      let sql := pyStrip m
      let sql := if sql.getLast? = some ';' then pyStrip (sql.dropLast) else sql
      some (Json.obj [(sqlKey, Json.str sql)])
    | none => none
  else none

/-- Embedding of `extract_json_from_text(text, for_tables)`.

The return type is `Except (List Char) Json`: an `.error` would model an
exception escaping the function.  Every operation of the source that can
raise (`json.loads`) is wrapped in `try/except` there and is therefore
`match`ed on here, so every branch below produces `.ok`; the totality claim
is proved as a theorem, not assumed. -/
def extract_json_from_text (uni : List Char → List Char) (text : List Char)
    (for_tables : Bool) : Except (List Char) Json :=
  if text.isEmpty then .ok (Json.obj [])
  else
    -- Normalize, then remove common LLM artifacts
    let text := normalizeText uni text
    -- First try: direct JSON parse
    match jsonLoads text with
    | .ok parsed => .ok parsed
    | .error _ =>
      -- Second try: replace single quotes with double quotes
      match jsonLoads (replaceAll text [squote] [dquote]) with
      | .ok parsed => .ok parsed
      | .error _ =>
        -- Third try: brace-delimited JSON objects, scanned from the end
        match firstKeyed (findBraceBlocks text).reverse with
        | some parsed => .ok parsed
        | none =>
          -- Fourth try: table names out of raw SQL (for_tables only)
          match tablesFromSqlStrategy for_tables text with
          | some parsed => .ok parsed
          | none =>
            -- Fifth try: extract raw SQL and wrap it (SQL target only)
            match rawSqlStrategy for_tables text with
            | some parsed => .ok parsed
            | none => .ok (Json.obj [])

/-! ## SQL validation (`SQLAgent.validate_sql`)

A pure function of the SQL string.  The source wraps its checks in a
`try/except`, but every operation used (`upper`, `in`, `count`) is total on
strings, so the `except` branch is unreachable and the embedding is a plain
function. -/

structure Validation where
  syntax_valid : Bool
  issues : List (List Char)
  warnings : List (List Char)
  deriving DecidableEq

def missingSemicolonWarning : List Char := "Query missing semicolon".data
def noStatementIssue : List Char := "No valid SQL statement found".data
def mismatchWarning : List Char := "Mismatched SELECT and FROM clauses".data

/-- Embedding of `SQLAgent.validate_sql`, check for check in source order:
semicolon presence (warning), statement-keyword presence (flips
`syntax_valid`), SELECT/FROM count balance (warning). -/
def validate_sql (sql_query : List Char) : Validation :=
  let sql_upper := pyUpper sql_query
  let v : Validation := ⟨true, [], []⟩
  let v :=
    if !sql_query.contains ';' then
      { v with warnings := v.warnings ++ [missingSemicolonWarning] }
    else v
  let v :=
    if !(containsSub sql_upper ("SELECT".data) || containsSub sql_upper ("INSERT".data) ||
         containsSub sql_upper ("UPDATE".data) || containsSub sql_upper ("DELETE".data)) then
      { v with syntax_valid := false, issues := v.issues ++ [noStatementIssue] }
    else v
  let v :=
    if countSub sql_upper ("SELECT".data) ≠ countSub sql_upper ("FROM".data) then
      { v with warnings := v.warnings ++ [mismatchWarning] }
    else v
  v

/-! ## Agent memory (`AgentMemory`)

The `timestamp` field of an execution record (`datetime.now()`) reads the
wall clock and is outside the embedding; no claim mentions it. -/

inductive Msg where
  | human (content : List Char) : Msg
  | ai (content : List Char) : Msg
  deriving DecidableEq

/-- One row mapping returned by SQL execution. -/
def Row : Type := List (List Char × List Char)

instance : DecidableEq Row := inferInstanceAs (DecidableEq (List (List Char × List Char)))

/-- A recorded tool execution (Python dict in `add_execution`, minus the
wall-clock timestamp). -/
structure ExecRecord where
  tool : List Char
  input_data : List (List Char × List Char)
  output_str : List Char
  success : Bool
  deriving DecidableEq

structure AgentMemory where
  messages : List Msg
  max_messages : Nat
  context : List (List Char × List Char)
  execution_history : List ExecRecord
  deriving DecidableEq

/-- `AgentMemory(max_messages)` constructor (default 50 at call sites). -/
def AgentMemory.init (max_messages : Nat) : AgentMemory :=
  ⟨[], max_messages, [], []⟩

/-- Python `lst[-k:]`: the last `k` elements — except that `lst[-0:]` is
`lst[0:]`, the whole list, which is why `k = 0` is special-cased exactly as
CPython evaluates it. -/
def pySliceLast (k : Nat) (l : List Msg) : List Msg :=
  if k = 0 then l else l.drop (l.length - k)

/-- Embedding of `AgentMemory.add_message`: append, then truncate to the
configured maximum when exceeded. -/
def AgentMemory.add_message (m : AgentMemory) (msg : Msg) : AgentMemory :=
  let msgs := m.messages ++ [msg]
  if msgs.length > m.max_messages then
    { m with messages := pySliceLast m.max_messages msgs }
  else
    { m with messages := msgs }

/-- Embedding of `AgentMemory.add_execution`: append a record. -/
def AgentMemory.add_execution (m : AgentMemory) (r : ExecRecord) : AgentMemory :=
  { m with execution_history := m.execution_history ++ [r] }

/-- Embedding of `AgentMemory.clear`. -/
def AgentMemory.clear (m : AgentMemory) : AgentMemory :=
  { m with messages := [], context := [], execution_history := [] }

/-! ## SQL agent (`SQLAgent`) -/

inductive AgState where
  | idle | thinking | executing | completed | error
  deriving DecidableEq

structure SQLAgentS where
  state : AgState
  memory : AgentMemory
  max_iterations : Nat
  deriving DecidableEq

/-- `SQLAgent.__init__` (fresh memory with the default maximum of 50). -/
def SQLAgentS.init : SQLAgentS :=
  ⟨AgState.idle, AgentMemory.init 50, 10⟩

/-- The collaborators `SQLAgent` calls out to: the LLM handle
(`llm.invoke`), the pipeline's SQL generation (`rag_pipeline.
generate_sql_query`), and the output connection (`None`, or a function
combining `connect`/`execute`/`fetchall`, which may raise). -/
structure AgentCollab where
  llm_invoke : List Char → Except (List Char) (List Char)
  gen_sql : List Char → Except (List Char) (List Char)
  conn : Option (List Char → Except (List Char) (List Row))

/-- The f-string prompt built by `SQLAgent.think`. -/
def thinkingPrompt (user_query : List Char) : List Char :=
  ("\nAnalyze this database query request and break it down:\n- What tables might be involved?\n- What is the user trying to accomplish?\n- Are there any constraints or conditions?\n\nUser Query: ".data)
  ++ user_query ++ ("\n\nProvide your analysis:\n".data)

/-- Embedding of `SQLAgent.think`: set state, record the query in memory,
invoke the LLM (whose exception, if any, is returned for the caller's
`try` block to catch). -/
def SQLAgent.think (c : AgentCollab) (a : SQLAgentS) (user_query : List Char) :
    SQLAgentS × Except (List Char) (List Char) :=
  let a := { a with state := AgState.thinking }
  let a := { a with memory := a.memory.add_message (Msg.human user_query) }
  (a, c.llm_invoke (thinkingPrompt user_query))

/-- Embedding of `SQLAgent.execute_query`: `None` connection yields `[]`;
any exception from connect/execute/fetch is caught and yields `[]`. -/
def SQLAgent.execute_query (c : AgentCollab) (sql_query : List Char) : List Row :=
  match c.conn with
  | none => []
  | some run =>
    match run sql_query with
    | .ok rows => rows
    | .error _ => []

/-- The result dictionary returned by `SQLAgent.execute`. -/
structure ExecResult where
  success : Bool
  sql : Option (List Char)
  validation : Option Validation
  result : Option (List Row)
  thinking : Option (List Char)
  executed : Option Bool
  error : Option (List Char)
  user_query : Option (List Char)
  deriving DecidableEq

def ExecResult.fail (e : List Char) (q : List Char) : ExecResult :=
  ⟨false, none, none, none, none, none, some e, some q⟩

def couldNotGenerate : List Char := "Could not generate SQL query".data

/-- Embedding of `SQLAgent.execute`, the Agent Execution Step:
think → generate → validate → (optionally) execute, with the whole body in
a `try` whose `except` produces an error-state failure dictionary. -/
def SQLAgent.execute (c : AgentCollab) (a : SQLAgentS) (user_query : List Char)
    (ex : Bool) : SQLAgentS × ExecResult :=
  let a := { a with state := AgState.executing }
  let (a, thinkRes) := SQLAgent.think c a user_query
  match thinkRes with
  | .error e => ({ a with state := AgState.error }, ExecResult.fail e user_query)
  | .ok thinking =>
    match c.gen_sql user_query with
    | .error e => ({ a with state := AgState.error }, ExecResult.fail e user_query)
    | .ok sql_query =>
      if sql_query.isEmpty then
        ({ a with state := AgState.error }, ExecResult.fail couldNotGenerate user_query)
      else
        let a := { a with memory :=
          a.memory.add_execution ⟨"generate_sql".data, [("query".data, user_query)], sql_query, true⟩ }
        let validation := validate_sql sql_query
        let (a, result) :=
          if ex then
            let r := SQLAgent.execute_query c sql_query
            ({ a with memory :=
               a.memory.add_execution ⟨"execute_query".data, [("sql".data, sql_query)], [], true⟩ },
             some r)
          else (a, none)
        let a := { a with memory :=
          a.memory.add_message (Msg.ai (("SQL Query: ".data) ++ sql_query)) }
        let a := { a with state := AgState.completed }
        (a, ⟨true, some sql_query, some validation, if ex then result else none,
             some thinking, some ex, none, none⟩)

/-- Embedding of `SQLAgent.reset`: clear memory, return to `IDLE`. -/
def SQLAgent.reset (a : SQLAgentS) : SQLAgentS :=
  { a with memory := a.memory.clear, state := AgState.idle }

/-! ## SQL Generation Step (`RAGSQLPipeline.generate_sql_query`) -/

/-- One metadata row, in the column order of the metadata `SELECT` in
`get_related_table_metadata`. -/
structure MetaRow where
  table_name : List Char
  table_description : List Char
  column_name : List Char
  data_type : List Char
  domain : List Char
  pk : List Char
  nullable : List Char
  column_description : List Char
  note_text : List Char
  ors_map : List Char
  backenddb : List Char
  schema_name : List Char

/-- `json.dumps` with `ensure_ascii=False` (default separators); only used
to splice the data-model description into a prompt handed to an opaque
template collaborator.  Fueled because `Json` is a nested inductive. -/
def joinCommaSep (xs : List (List Char)) : List Char :=
  match xs with
  | [] => []
  | x :: rest => rest.foldl (fun acc y => acc ++ (", ".data) ++ y) x

def jsonEscapeChar (c : Char) : List Char :=
  if c = dquote then [bslash, dquote]
  else if c = bslash then [bslash, bslash]
  else if c = Char.ofNat 10 then [bslash, 'n']
  else if c = Char.ofNat 13 then [bslash, 'r']
  else if c = Char.ofNat 9 then [bslash, 't']
  else if c.toNat < 32 then
    [bslash, 'u', '0', '0',
     (if c.toNat / 16 < 10 then Char.ofNat (48 + c.toNat / 16) else Char.ofNat (87 + c.toNat / 16)),
     (if c.toNat % 16 < 10 then Char.ofNat (48 + c.toNat % 16) else Char.ofNat (87 + c.toNat % 16))]
  else [c]

def jsonDump : Json → List Char
  | .null => "null".data
  | .bool true => "true".data
  | .bool false => "false".data
  | .nan => "NaN".data
  | .inf false => "Infinity".data
  | .inf true => "-Infinity".data
  | .num m e =>
    if e = 0 then (toString m).data
    else (toString m).data ++ ['e'] ++ (toString e).data
  | .str s => [dquote] ++ s.foldr (fun c acc => jsonEscapeChar c ++ acc) [] ++ [dquote]
  | .arr xs =>
    [lbrack] ++ joinCommaSep (xs.attach.map (fun x => jsonDump x.1)) ++ [rbrack]
  | .obj kvs =>
    [lbrace] ++
    joinCommaSep (kvs.attach.map (fun kv =>
      [dquote] ++ kv.1.1 ++ [dquote] ++ (": ".data) ++ jsonDump kv.1.2)) ++
    [rbrace]
decreasing_by
  · have h := List.sizeOf_lt_of_mem x.2
    simp only [Json.arr.sizeOf_spec]
    omega
  · obtain ⟨⟨k, v⟩, hm⟩ := kv
    have h := List.sizeOf_lt_of_mem hm
    simp only [Prod.mk.sizeOf_spec] at h ⊢
    simp only [Json.obj.sizeOf_spec]
    omega

/-- The per-row block of `full_input` built by `generate_sql_query`
(`table, desc, col, dtype, domain, *_, schema = r`). -/
def metaRowBlock (r : MetaRow) : List Char :=
  ("Table: ".data) ++ r.table_name ++ ("\nDescription: ".data) ++ r.table_description ++
  ("\nColumn: ".data) ++ r.column_name ++ (", Type: ".data) ++ r.data_type ++
  (", Domain: ".data) ++ r.domain ++ (", Schema: ".data) ++ r.schema_name ++ ("\n\n".data)

def buildFullInput (rows : List MetaRow) : List Char :=
  rows.foldl (fun acc r => acc ++ metaRowBlock r) []

/-- The simplified retry prompt of `generate_sql_query` (try 3). -/
def simplePromptOf (full_input_trunc query_text : List Char) : List Char :=
  ("Generate SQL query.\n\nTables:\n".data) ++ full_input_trunc ++
  ("\n\nQuery: ".data) ++ query_text ++
  ("\n\nOutput JSON:\n\x7b\"cau_lenh_sql_theo_yeu_cau_nghiep_vu\": \"SELECT * FROM SCHEMA.TABLE\"\x7d\n\nYour response:\n".data)

/-- `parsed.get("cau_lenh_sql_theo_yeu_cau_nghiep_vu", "")` guarded by the
source's `isinstance` dispatch: dicts are looked up (last duplicate key
wins, as in a Python dict), plain strings pass through, anything else
yields `""`.  A dict value that is not a string is returned as-is, exactly
as Python would. -/
def sqlFromParsed (parsed : Json) : Json :=
  match parsed with
  | .obj kvs => ((kvs.reverse.find? (fun kv => kv.1 = sqlKey)).map Prod.snd).getD (Json.str [])
  | .str s => Json.str s
  | _ => Json.str []

/-- Python truthiness (`if sql:`) of a decoded JSON value. -/
def jsonTruthy (j : Json) : Bool :=
  match j with
  | .null => false
  | .bool b => b
  | .num m _ => m ≠ 0
  | .str s => !s.isEmpty
  | .arr xs => !xs.isEmpty
  | .obj kvs => !kvs.isEmpty
  | .inf _ => true
  | .nan => true

/-- Collaborators of `RAGSQLPipeline.generate_sql_query`.  `get_meta` is
the Metadata Resolution Step boundary (`self.get_related_table_metadata`,
whose own body is dominated by the retriever / LLM / metadata-cursor
collaborators); `load_datamodel` is the `open`/`json.load` of the
data-model file, *not* inside any `try` in the source, so its failure
propagates; `format_output` is the injected `final_prompt_output` template;
`chain_invoke` is the piped `prompt | llm | JsonOutputParser` chain;
`llm_invoke` is the bare LLM handle; `uni` is `unidecode.unidecode`. -/
structure RagCollab where
  uni : List Char → List Char
  get_meta : List Char → Except (List Char) (List MetaRow)
  load_datamodel : Except (List Char) Json
  format_output : List Char → List Char → List Char → List Char → List Char
  chain_invoke : List Char → Except (List Char) Json
  llm_invoke : List Char → Except (List Char) (List Char)
  backend_db0 : List Char

/-- Embedding of `RAGSQLPipeline.generate_sql_query`: empty metadata short
circuits to `""`; then up to three extraction attempts (piped chain, direct
invoke + aggressive extraction, simplified prompt when `retry_count < 1`),
each attempt's exceptions caught; final fallback `""`. -/
def RAGSQLPipeline.generate_sql_query (c : RagCollab) (query_text : List Char)
    (retry_count : Nat) : Except (List Char) Json :=
  match c.get_meta query_text with
  | .error e => .error e
  | .ok rows =>
    if rows.isEmpty then .ok (Json.str [])
    else
      match c.load_datamodel with
      | .error e => .error e
      | .ok datamodel =>
        let full_input := buildFullInput rows
        let prompt := c.format_output full_input (jsonDump datamodel) query_text c.backend_db0
        -- Try 1: piped chain
        let try1 : Option Json :=
          match c.chain_invoke prompt with
          | .error _ => none
          | .ok parsed =>
            let sql := sqlFromParsed parsed
            if jsonTruthy sql then some sql else none
        match try1 with
        | some sql => .ok sql
        | none =>
          -- Try 2: direct invoke with aggressive extraction
          let try2 : Option Json :=
            match c.llm_invoke prompt with
            | .error _ => none
            | .ok raw_output =>
              match extract_json_from_text c.uni raw_output false with
              | .error _ => none
              | .ok parsed =>
                let sql := sqlFromParsed parsed
                if jsonTruthy sql then some sql else none
          match try2 with
          | some sql => .ok sql
          | none =>
            -- Try 3: simplified prompt, a single in-step retry
            let try3 : Option Json :=
              if retry_count < 1 then
                match c.llm_invoke (simplePromptOf (full_input.take 1000) query_text) with
                | .error _ => none
                | .ok raw_output =>
                  match extract_json_from_text c.uni raw_output false with
                  | .error _ => none
                  | .ok parsed =>
                    let sql := sqlFromParsed parsed
                    if jsonTruthy sql then some sql else none
              else none
            match try3 with
            | some sql => .ok sql
            | none => .ok (Json.str [])

/-- The agent consumes `generate_sql_query`'s value as a string
(`if not sql_query`, `sql_query.upper()`, …); in every scenario the claims
exercise, the value is a string. -/
def jsonAsStr : Json → List Char
  | .str s => s
  | _ => []

/-! ## Refinement Loop (`AgentRunner`, `ignore/base_original/agent_runner.py`)

The runner's view of the agent is the call
`self.agent.execute(user_query, execute=execute)`; the embedding abstracts
it as a `step` oracle indexed by the invocation count (the `execute` flag is
a fixed argument absorbed into the oracle).  An `.error` step models the
`except` branch of the loop body. -/

inductive RunnerState where
  | ready | running | paused | stopped
  deriving DecidableEq

structure LogEntry where
  iteration : Nat
  status : List Char
  result : Option ExecResult
  error : Option (List Char)
  deriving DecidableEq

structure RunnerS where
  state : RunnerState
  max_iterations : Nat
  current_iteration : Nat
  execution_log : List LogEntry
  deriving DecidableEq

/-- `AgentRunner.__init__`: `READY`, default budget 5. -/
def RunnerS.init : RunnerS :=
  ⟨RunnerState.ready, 5, 0, []⟩

/-- The final result dictionary (`_format_final_result` / the failure
dictionary).  The Python success dictionary also snapshots
`agent_state`/`agent_memory` from the live agent object, which the oracle
abstraction does not carry; no claim inspects those two entries. -/
structure FinalResult where
  success : Bool
  sql : Option (List Char)
  validation : Option Validation
  result : Option (List Row)
  thinking : Option (List Char)
  executed : Option Bool
  iterations : Nat
  error : Option (List Char)
  logs : Option (List LogEntry)
  deriving DecidableEq

/-- Embedding of `AgentRunner._format_final_result`. -/
def format_final_result (results : List ExecResult) : FinalResult :=
  match results.getLast? with
  | none => ⟨false, none, none, none, none, none, 0, some ("No results".data), none⟩
  | some best =>
    ⟨true, best.sql, best.validation, best.result, best.thinking, best.executed,
     results.length, none, none⟩

/-- Embedding of `AgentRunner._refine_query` (a `None` error renders as the
string `"None"`, as in a Python f-string). -/
def refine_query (original_query : List Char) (error : Option (List Char)) : List Char :=
  original_query ++ (" (Note: Previous attempt failed with: ".data) ++
  (match error with | some e => e | none => "None".data) ++ (". Please adjust.)".data)

def budgetExhaustedError : List Char :=
  "Could not generate valid SQL after multiple attempts".data

/-- The code that runs after the `for` loop ends (by `break` or
exhaustion): restore `READY`, return the last successful result if any,
else the structured failure carrying the iteration log. -/
def runLoopFinish (r : RunnerS) (iteration_results : List ExecResult) (calls : Nat) :
    RunnerS × FinalResult × Nat :=
  let r := { r with state := RunnerState.ready }
  let successful := iteration_results.filter (fun x => x.success)
  match successful.getLast? with
  | some best => (r, format_final_result [best], calls)
  | none =>
    (r, ⟨false, none, none, none, none, none, iteration_results.length,
         some budgetExhaustedError, some r.execution_log⟩, calls)

/-- The `for iteration in range(max_iterations)` body of `AgentRunner.run`.
`rem` counts the iterations left (the range bound is read once), `i` is the
0-based loop variable, `calls` the number of `step` invocations so far
(returned alongside the result so iteration-count claims are statable). -/
def runLoop (step : Nat → List Char → Except (List Char) ExecResult) :
    Nat → Nat → List Char → RunnerS → List ExecResult → Nat →
    RunnerS × FinalResult × Nat
  | 0, _, _, r, results, calls => runLoopFinish r results calls
  | rem + 1, i, q, r, results, calls =>
    let r := { r with current_iteration := i + 1 }
    if r.state = RunnerState.stopped then runLoopFinish r results calls
    else if r.state = RunnerState.paused then runLoop step rem (i + 1) q r results calls
    else
      match step calls q with
      | .ok result =>
        let r := { r with execution_log := r.execution_log ++
          [⟨i + 1, if result.success then "success".data else "failed".data, some result, none⟩] }
        let results := results ++ [result]
        if result.success then
          ({ r with state := RunnerState.ready }, format_final_result results, calls + 1)
        else
          let q := if i < r.max_iterations - 1 then refine_query q result.error else q
          runLoop step rem (i + 1) q r results (calls + 1)
      | .error e =>
        let r := { r with execution_log := r.execution_log ++
          [⟨i + 1, "error".data, none, some e⟩] }
        runLoop step rem (i + 1) q r results (calls + 1)

/-- Embedding of `AgentRunner.run`.  Note `if max_iterations:` — Python
truthiness — so `0` (and `None`) leave the stored budget untouched, while a
truthy value permanently overwrites `self.max_iterations`. -/
def AgentRunner.run (step : Nat → List Char → Except (List Char) ExecResult)
    (r : RunnerS) (user_query : List Char) (max_iterations : Option Nat) :
    RunnerS × FinalResult × Nat :=
  let r := { r with state := RunnerState.running, current_iteration := 0,
                    execution_log := [] }
  let r :=
    match max_iterations with
    | some n => if n ≠ 0 then { r with max_iterations := n } else r
    | none => r
  runLoop step r.max_iterations 0 user_query r [] 0

/-- `AgentRunner.pause`. -/
def AgentRunner.pause (r : RunnerS) : RunnerS :=
  { r with state := RunnerState.paused }

/-- `AgentRunner.stop`. -/
def AgentRunner.stop (r : RunnerS) : RunnerS :=
  { r with state := RunnerState.stopped }

/-- `AgentRunner.resume`. -/
def AgentRunner.resume (r : RunnerS) : RunnerS :=
  if r.state = RunnerState.paused then { r with state := RunnerState.running } else r

/-! ## Orchestrator (`AgentOrchestrator`) -/

structure AgentOrchestrator where
  agent : SQLAgentS
  runner : RunnerS
  deriving DecidableEq

/-- `AgentOrchestrator.__init__`: fresh agent and runner. -/
def AgentOrchestrator.init : AgentOrchestrator :=
  ⟨SQLAgentS.init, RunnerS.init⟩

/-- Embedding of `AgentOrchestrator.reset`: `self.agent.reset()` and
`self.runner.execution_log.clear()` — and nothing else; in particular the
runner's `state` field is not written. -/
def AgentOrchestrator.reset (o : AgentOrchestrator) : AgentOrchestrator :=
  ⟨SQLAgent.reset o.agent, { o.runner with execution_log := [] }⟩

/-! # Claims

One theorem per claim of the specification audit, with counterexamples for
the claims the code refutes and witnesses instantiating every theorem that
carries hypotheses. -/

/-- Helper for C7: folding `add_message` over any starting memory whose
message list is within its bound `M ≥ 1` retains exactly the most recent
`M` of all messages, in order. -/
theorem foldl_add_message_messages (M : Nat) (hM : 1 ≤ M) :
    ∀ (ms : List Msg) (acc : AgentMemory),
      acc.max_messages = M →
      acc.messages.length ≤ M →
      (ms.foldl AgentMemory.add_message acc).messages =
        (acc.messages ++ ms).drop ((acc.messages ++ ms).length - M)
  | [], acc, _, hlen => by
    simp [Nat.sub_eq_zero_of_le hlen]
  | m :: rest, acc, hmax, hlen => by
    rw [List.foldl_cons]
    by_cases hb : (acc.messages ++ [m]).length > acc.max_messages
    · have hb' : (acc.messages ++ [m]).length > M := by rw [hmax] at hb; exact hb
      have hlenA : (acc.messages ++ [m]).length = M + 1 := by
        simp only [List.length_append, List.length_singleton] at hb' ⊢
        omega
      have hadd : AgentMemory.add_message acc m =
          { acc with messages :=
              (acc.messages ++ [m]).drop ((acc.messages ++ [m]).length - M) } := by
        unfold AgentMemory.add_message pySliceLast
        rw [if_pos hb, hmax, if_neg (by omega)]
      have hrec := foldl_add_message_messages M hM rest
        { acc with messages :=
            (acc.messages ++ [m]).drop ((acc.messages ++ [m]).length - M) }
        (by exact hmax) (by simp only [List.length_drop]; omega)
      rw [hadd, hrec]
      show ((acc.messages ++ [m]).drop ((acc.messages ++ [m]).length - M) ++ rest).drop _ = _
      rw [← List.drop_append_of_le_length (by omega)]
      rw [List.drop_drop]
      have hassoc : (acc.messages ++ [m]) ++ rest = acc.messages ++ m :: rest := by
        simp
      rw [hassoc]
      congr 1
      dsimp only
      simp only [List.length_append, List.length_drop, List.length_cons,
        List.length_singleton, List.length_nil] at hlenA ⊢
      omega
    · have hb' : (acc.messages ++ [m]).length ≤ M := by
        rw [hmax] at hb; omega
      have hadd : AgentMemory.add_message acc m =
          { acc with messages := acc.messages ++ [m] } := by
        unfold AgentMemory.add_message
        rw [if_neg hb]
      have hrec := foldl_add_message_messages M hM rest
        { acc with messages := acc.messages ++ [m] } (by exact hmax) (by exact hb')
      rw [hadd, hrec]
      show ((acc.messages ++ [m]) ++ rest).drop _ = _
      have hassoc : (acc.messages ++ [m]) ++ rest = acc.messages ++ m :: rest := by
        simp
      rw [hassoc]

/-- Claim C7 — counterexample.  A memory configured with maximum message
count `M = 0` does *not* stay within its bound: Python's truncation slice
`messages[-0:]` is `messages[0:]`, the whole list, so one `add_message`
leaves one stored message, exceeding the configured maximum of zero. -/
theorem C7_memory_bound_counterexample :
    ¬ (([Msg.human ("x".data)].foldl AgentMemory.add_message
        (AgentMemory.init 0)).messages.length ≤ (AgentMemory.init 0).max_messages) := by
  decide

/-- Claim C7 (amended): for a memory configured with maximum message count
`M ≥ 1` (the `M = 0` configuration is broken by the `[-0:]` slice), after
any sequence of `add_message` calls the stored list is exactly the `M` most
recently added messages in insertion order, and in particular never longer
than `M`. -/
theorem C7_memory_bound_amended (M : Nat) (ms : List Msg) (hM : 1 ≤ M) :
    (ms.foldl AgentMemory.add_message (AgentMemory.init M)).messages =
      ms.drop (ms.length - M) ∧
    (ms.foldl AgentMemory.add_message (AgentMemory.init M)).messages.length ≤ M := by
  have h := foldl_add_message_messages M hM ms (AgentMemory.init M) rfl
    (by simp [AgentMemory.init])
  constructor
  · simpa [AgentMemory.init] using h
  · rw [h]
    simp [AgentMemory.init]
    omega

/-- Witness for C7 (amended): with `M = 2`, adding three messages retains
exactly the last two, in order. -/
theorem C7_memory_bound_amended_witness :
    ([Msg.human ("a".data), Msg.human ("b".data), Msg.human ("c".data)].foldl
        AgentMemory.add_message (AgentMemory.init 2)).messages =
      [Msg.human ("b".data), Msg.human ("c".data)] ∧
    ([Msg.human ("a".data), Msg.human ("b".data), Msg.human ("c".data)].foldl
        AgentMemory.add_message (AgentMemory.init 2)).messages.length ≤ 2 := by
  have h := C7_memory_bound_amended 2
    [Msg.human ("a".data), Msg.human ("b".data), Msg.human ("c".data)] (by decide)
  exact ⟨h.1.trans (by decide), h.2⟩

/-- Claim C9: `syntax_valid` is false exactly when none of the four
statement keywords occurs (case-insensitively); an unbalanced
`SELECT`/`FROM` count and a missing semicolon each contribute exactly a
warning and never affect the flag (the flag equation's right-hand side does
not mention them). -/
theorem C9_validate_sql_characterization (s : List Char) :
    ((validate_sql s).syntax_valid =
      (containsSub (pyUpper s) ("SELECT".data) || containsSub (pyUpper s) ("INSERT".data) ||
       containsSub (pyUpper s) ("UPDATE".data) || containsSub (pyUpper s) ("DELETE".data))) ∧
    (mismatchWarning ∈ (validate_sql s).warnings ↔
      countSub (pyUpper s) ("SELECT".data) ≠ countSub (pyUpper s) ("FROM".data)) ∧
    (missingSemicolonWarning ∈ (validate_sql s).warnings ↔ ¬ s.contains ';' = true) ∧
    (noStatementIssue ∈ (validate_sql s).issues ↔
      ¬ (containsSub (pyUpper s) ("SELECT".data) || containsSub (pyUpper s) ("INSERT".data) ||
         containsSub (pyUpper s) ("UPDATE".data) ||
         containsSub (pyUpper s) ("DELETE".data)) = true) := by
  have hne : mismatchWarning ≠ missingSemicolonWarning := by decide
  unfold validate_sql
  cases h1 : s.contains ';' <;>
    cases h2 : (containsSub (pyUpper s) ("SELECT".data) ||
      containsSub (pyUpper s) ("INSERT".data) ||
      containsSub (pyUpper s) ("UPDATE".data) ||
      containsSub (pyUpper s) ("DELETE".data)) <;>
    by_cases h3 : countSub (pyUpper s) ("SELECT".data) =
      countSub (pyUpper s) ("FROM".data) <;>
    simp [h1, h2, h3, List.mem_append, List.mem_singleton, hne, hne.symm]

/-- Witness for C9 at a concrete query: `SELECT a FROM t` (no semicolon,
balanced counts) is syntactically plausible with exactly the semicolon
warning. -/
theorem C9_validate_sql_witness :
    (validate_sql ("SELECT a FROM t".data)).syntax_valid =
      (containsSub (pyUpper ("SELECT a FROM t".data)) ("SELECT".data) ||
       containsSub (pyUpper ("SELECT a FROM t".data)) ("INSERT".data) ||
       containsSub (pyUpper ("SELECT a FROM t".data)) ("UPDATE".data) ||
       containsSub (pyUpper ("SELECT a FROM t".data)) ("DELETE".data)) ∧
    (missingSemicolonWarning ∈ (validate_sql ("SELECT a FROM t".data)).warnings ↔
      ¬ ("SELECT a FROM t".data).contains ';' = true) :=
  ⟨(C9_validate_sql_characterization ("SELECT a FROM t".data)).1,
   (C9_validate_sql_characterization ("SELECT a FROM t".data)).2.2.1⟩

/-- Claim C1: for every input text and both targets, the extractor returns
a value — every branch of the embedded function is a normal return, so no
exception escapes — and on empty input it returns the explicit failure
outcome, the empty dict.  (The fall-through of every strategy, visible as
the final branch of `extract_json_from_text`, is the same empty dict.) -/
theorem C1_extract_never_raises (uni : List Char → List Char) (text : List Char)
    (ft : Bool) :
    (∃ j, extract_json_from_text uni text ft = Except.ok j) ∧
    (text = [] → extract_json_from_text uni text ft = Except.ok (Json.obj [])) := by
  constructor
  · unfold extract_json_from_text
    by_cases he : text.isEmpty = true
    · rw [if_pos he]
      exact ⟨Json.obj [], rfl⟩
    · rw [if_neg he]
      dsimp only
      cases h1 : jsonLoads (normalizeText uni text) with
      | ok p => exact ⟨p, rfl⟩
      | error e1 =>
        cases h2 : jsonLoads (replaceAll (normalizeText uni text) [squote] [dquote]) with
        | ok p => exact ⟨p, rfl⟩
        | error e2 =>
          cases h3 : firstKeyed (findBraceBlocks (normalizeText uni text)).reverse with
          | some p => exact ⟨p, rfl⟩
          | none =>
            cases h4 : tablesFromSqlStrategy ft (normalizeText uni text) with
            | some p => exact ⟨p, rfl⟩
            | none =>
              cases h5 : rawSqlStrategy ft (normalizeText uni text) with
              | some p => exact ⟨p, rfl⟩
              | none => exact ⟨Json.obj [], rfl⟩
  · intro h
    subst h
    rfl

/-- Witness for C1: a structure-free input yields a value (the empty
dict), and the empty input yields the empty dict. -/
theorem C1_extract_never_raises_witness :
    (∃ j, extract_json_from_text id ("just some prose".data) true = Except.ok j) ∧
    extract_json_from_text id [] true = Except.ok (Json.obj []) :=
  ⟨(C1_extract_never_raises id ("just some prose".data) true).1,
   (C1_extract_never_raises id [] true).2 rfl⟩

/-- The key the extractor is expected to recover for each target. -/
def expectedKey (for_tables : Bool) : List Char :=
  if for_tables then tableKey else sqlKey

/-- Whether a decoded value is a structured object carrying the expected
key for the target (the premise of the direct-decode claim). -/
def hasKeyFor (for_tables : Bool) (p : Json) : Bool :=
  match p with
  | .obj kvs => hasKey kvs (expectedKey for_tables)
  | _ => false

/-- Claim C4: any non-empty raw text whose normalized form decodes directly
as a structured object with the expected key is returned unchanged by the
first (direct-decode) strategy — the conclusion is exactly the direct
decode's value, so no later strategy contributes. -/
theorem C4_direct_decode_roundtrip (uni : List Char → List Char)
    (t : List Char) (ft : Bool) (p : Json)
    (hne : t ≠ [])
    (hdec : jsonLoads (normalizeText uni t) = Except.ok p)
    (hkey : hasKeyFor ft p = true) :
    extract_json_from_text uni t ft = Except.ok p := by
  unfold extract_json_from_text
  rw [if_neg (by simpa using hne)]
  dsimp only
  rw [hdec]

/-- Witness for C4, the spec's own example:
`extract('{"cau_lenh_sql_theo_yeu_cau_nghiep_vu": "SELECT 1"}', SqlStatement)`
yields the payload whose key maps to `"SELECT 1"`. -/
theorem C4_direct_decode_roundtrip_witness :
    extract_json_from_text id
      ("\x7b\"cau_lenh_sql_theo_yeu_cau_nghiep_vu\": \"SELECT 1\"\x7d".data) false =
      Except.ok (Json.obj [(sqlKey, Json.str ("SELECT 1".data))]) :=
  C4_direct_decode_roundtrip id
    ("\x7b\"cau_lenh_sql_theo_yeu_cau_nghiep_vu\": \"SELECT 1\"\x7d".data) false
    (Json.obj [(sqlKey, Json.str ("SELECT 1".data))])
    (by decide) (by rfl) (by rfl)

/-- Claim C8: when the normalized text fails direct decode but its
single-quote-to-double-quote repair decodes as `p`, extraction succeeds via
the quote-repair strategy and yields `p` — and so does extracting the
double-quoted equivalent of the text directly, i.e. the two agree on the
same logical content.  The commutation hypothesis `hcomm` states that
normalization and the quote swap commute on this text; it is a property of
the input (it holds whenever the unidecode collaborator and the code-fence
markers do not interact with the quotes, as on any ASCII fence-free text). -/
theorem C8_quote_repair (uni : List Char → List Char) (t : List Char) (ft : Bool)
    (p : Json)
    (hne : t ≠ [])
    (hne2 : replaceAll t [squote] [dquote] ≠ [])
    (hfail : (jsonLoads (normalizeText uni t)).isOk = false)
    (hrepair : jsonLoads (replaceAll (normalizeText uni t) [squote] [dquote]) =
      Except.ok p)
    (hcomm : normalizeText uni (replaceAll t [squote] [dquote]) =
      replaceAll (normalizeText uni t) [squote] [dquote]) :
    extract_json_from_text uni t ft = Except.ok p ∧
    extract_json_from_text uni (replaceAll t [squote] [dquote]) ft = Except.ok p := by
  constructor
  · unfold extract_json_from_text
    rw [if_neg (by simpa using hne)]
    dsimp only
    cases h1 : jsonLoads (normalizeText uni t) with
    | ok q => rw [h1] at hfail; simp [Except.isOk, Except.toBool] at hfail
    | error e => rw [hrepair]
  · unfold extract_json_from_text
    rw [if_neg (by simpa using hne2)]
    dsimp only
    rw [hcomm, hrepair]

/-- Witness for C8 on `{'a': 1}`: direct decode fails, the repaired text
`{"a": 1}` decodes, and both the single-quoted original and its
double-quoted equivalent extract to the same payload. -/
theorem C8_quote_repair_witness :
    extract_json_from_text id ("\x7b'a': 1\x7d".data) false =
      Except.ok (Json.obj [("a".data, Json.num 1 0)]) ∧
    extract_json_from_text id (replaceAll ("\x7b'a': 1\x7d".data) [squote] [dquote]) false =
      Except.ok (Json.obj [("a".data, Json.num 1 0)]) :=
  C8_quote_repair id ("\x7b'a': 1\x7d".data) false (Json.obj [("a".data, Json.num 1 0)])
    (by decide) (by decide) (by rfl) (by rfl) (by rfl)

/-- Claim C5: in an execute-flagged attempt, an exception raised by the SQL
execution collaborator is caught inside `execute_query` and surfaces as the
empty result list; the attempt still reports `success = true` (generation
succeeded), ends in the `Completed` state, and — by the totality of the
embedded `SQLAgent.execute`, which returns a result record on every path —
nothing propagates to the caller. -/
theorem C5_execution_failure_contained
    (c : AgentCollab) (a : SQLAgentS) (q sql ttext e : List Char)
    (runf : List Char → Except (List Char) (List Row))
    (hthink : c.llm_invoke (thinkingPrompt q) = Except.ok ttext)
    (hgen : c.gen_sql q = Except.ok sql)
    (hsql : sql ≠ [])
    (hconn : c.conn = some runf)
    (hraise : runf sql = Except.error e) :
    (SQLAgent.execute c a q true).2.success = true ∧
    (SQLAgent.execute c a q true).2.result = some ([] : List Row) ∧
    (SQLAgent.execute c a q true).2.sql = some sql ∧
    (SQLAgent.execute c a q true).1.state = AgState.completed := by
  have hempty : sql.isEmpty = false := by
    cases sql
    · exact absurd rfl hsql
    · rfl
  refine ⟨?_, ?_, ?_, ?_⟩ <;>
    simp [SQLAgent.execute, SQLAgent.think, SQLAgent.execute_query,
      hthink, hgen, hconn, hraise, hempty]

def c5Collab : AgentCollab :=
  ⟨fun _ => Except.ok ("analysis".data),
   fun _ => Except.ok ("SELECT 1".data),
   some (fun _ => Except.error ("db down".data))⟩

/-- Witness for C5: a collaborator whose SQL execution always raises still
yields a successful attempt with an empty result. -/
theorem C5_execution_failure_contained_witness :
    (SQLAgent.execute c5Collab SQLAgentS.init ("list customers".data) true).2.success = true ∧
    (SQLAgent.execute c5Collab SQLAgentS.init ("list customers".data) true).2.result =
      some ([] : List Row) ∧
    (SQLAgent.execute c5Collab SQLAgentS.init ("list customers".data) true).2.sql =
      some ("SELECT 1".data) ∧
    (SQLAgent.execute c5Collab SQLAgentS.init ("list customers".data) true).1.state =
      AgState.completed :=
  C5_execution_failure_contained c5Collab SQLAgentS.init ("list customers".data)
    ("SELECT 1".data) ("analysis".data) ("db down".data)
    (fun _ => Except.error ("db down".data)) rfl rfl (by decide) rfl rfl

/-- The wiring `SQLAgent` receives at construction: its `gen_sql`
collaborator is the pipeline's `generate_sql_query` (default
`retry_count = 0`), whose string value the agent consumes. -/
def agentCollabOfRag (rc : RagCollab)
    (llm : List Char → Except (List Char) (List Char))
    (conn : Option (List Char → Except (List Char) (List Row))) : AgentCollab :=
  ⟨llm, fun q => (RAGSQLPipeline.generate_sql_query rc q 0).map jsonAsStr, conn⟩

/-- Claim C6: when Metadata Resolution returns no rows, SQL Generation
returns the empty string immediately — the conclusion holds for *every*
generation collaborator (`chain_invoke`/`llm_invoke`), which is exactly the
statement that none of them is consulted — and the Agent Execution Step
then reports `success = false` with the descriptive error and ends in the
`Error` state, with both boundaries returning values rather than raising. -/
theorem C6_no_metadata_graceful (rc : RagCollab)
    (llm : List Char → Except (List Char) (List Char))
    (conn : Option (List Char → Except (List Char) (List Row)))
    (a : SQLAgentS) (q ttext : List Char) (ex : Bool)
    (hmeta : rc.get_meta q = Except.ok [])
    (hthink : llm (thinkingPrompt q) = Except.ok ttext) :
    RAGSQLPipeline.generate_sql_query rc q 0 = Except.ok (Json.str []) ∧
    (SQLAgent.execute (agentCollabOfRag rc llm conn) a q ex).2.success = false ∧
    (SQLAgent.execute (agentCollabOfRag rc llm conn) a q ex).2.error =
      some couldNotGenerate ∧
    (SQLAgent.execute (agentCollabOfRag rc llm conn) a q ex).1.state =
      AgState.error := by
  have hgen : RAGSQLPipeline.generate_sql_query rc q 0 = Except.ok (Json.str []) := by
    unfold RAGSQLPipeline.generate_sql_query
    rw [hmeta]
    rfl
  refine ⟨hgen, ?_, ?_, ?_⟩ <;>
    simp [SQLAgent.execute, SQLAgent.think, agentCollabOfRag, hthink, hgen,
      jsonAsStr, ExecResult.fail, Except.map]

def c6Rag : RagCollab :=
  ⟨id, fun _ => Except.ok [], Except.ok Json.null, fun _ _ _ _ => [],
   fun _ => Except.error ("parser failure".data), fun _ => Except.ok [], []⟩

/-- Witness for C6 on the spec's end-to-end example query, with a pipeline
whose metadata resolution finds nothing. -/
theorem C6_no_metadata_graceful_witness :
    RAGSQLPipeline.generate_sql_query c6Rag ("Show me all customers".data) 0 =
      Except.ok (Json.str []) ∧
    (SQLAgent.execute (agentCollabOfRag c6Rag (fun _ => Except.ok ("analysis".data)) none)
      SQLAgentS.init ("Show me all customers".data) false).2.success = false ∧
    (SQLAgent.execute (agentCollabOfRag c6Rag (fun _ => Except.ok ("analysis".data)) none)
      SQLAgentS.init ("Show me all customers".data) false).2.error =
      some couldNotGenerate ∧
    (SQLAgent.execute (agentCollabOfRag c6Rag (fun _ => Except.ok ("analysis".data)) none)
      SQLAgentS.init ("Show me all customers".data) false).1.state = AgState.error :=
  C6_no_metadata_graceful c6Rag (fun _ => Except.ok ("analysis".data)) none
    SQLAgentS.init ("Show me all customers".data) ("analysis".data) false rfl rfl

/-- Whether one runner-observed attempt outcome is a success (`result.get
("success")` truthy; an exception counts as not successful). -/
def stepSucceeds (o : Except (List Char) ExecResult) : Bool :=
  match o with
  | .ok r => r.success
  | .error _ => false

/-- A step oracle whose every attempt fails (generation failure). -/
def alwaysFailStep : Nat → List Char → Except (List Char) ExecResult :=
  fun _ _ => Except.ok (ExecResult.fail ("generation failed".data) ("q".data))

theorem runLoopFinish_calls (r : RunnerS) (results : List ExecResult) (calls : Nat) :
    (runLoopFinish r results calls).2.2 = calls := by
  unfold runLoopFinish
  dsimp only
  cases h : (List.filter (fun x => x.success) results).getLast? <;> rfl

theorem runLoopFinish_max (r : RunnerS) (results : List ExecResult) (calls : Nat) :
    (runLoopFinish r results calls).1.max_iterations = r.max_iterations := by
  unfold runLoopFinish
  dsimp only
  cases h : (List.filter (fun x => x.success) results).getLast? <;> rfl

/-- The loop performs at most one step invocation per remaining iteration. -/
theorem runLoop_calls_le (step : Nat → List Char → Except (List Char) ExecResult) :
    ∀ (rem i : Nat) (q : List Char) (r : RunnerS) (results : List ExecResult)
      (calls : Nat), r.state = RunnerState.running →
      (runLoop step rem i q r results calls).2.2 ≤ calls + rem
  | 0, i, q, r, results, calls, hr => by
    simp [runLoop, runLoopFinish_calls]
  | rem + 1, i, q, r, results, calls, hr => by
    unfold runLoop
    rw [if_neg (by simp [show ({ r with current_iteration := i + 1 } : RunnerS).state =
          r.state from rfl, hr]),
        if_neg (by simp [show ({ r with current_iteration := i + 1 } : RunnerS).state =
          r.state from rfl, hr])]
    cases hs : step calls q with
    | ok result =>
      by_cases hsucc : result.success = true
      · simp only [hsucc, if_pos]
        omega
      · simp only [Bool.not_eq_true] at hsucc
        simp only [hsucc, Bool.false_eq_true, if_neg, ite_false]
        exact le_trans (runLoop_calls_le step rem (i + 1) _ _ _ _ (by exact hr)) (by omega)
    | error e =>
      exact le_trans (runLoop_calls_le step rem (i + 1) _ _ _ _ (by exact hr)) (by omega)

/-- With a never-succeeding oracle, the loop spends its whole budget: one
invocation per remaining iteration. -/
theorem runLoop_calls_all_fail (step : Nat → List Char → Except (List Char) ExecResult)
    (hfail : ∀ k q', stepSucceeds (step k q') = false) :
    ∀ (rem i : Nat) (q : List Char) (r : RunnerS) (results : List ExecResult)
      (calls : Nat), r.state = RunnerState.running →
      (runLoop step rem i q r results calls).2.2 = calls + rem
  | 0, i, q, r, results, calls, hr => by
    simp [runLoop, runLoopFinish_calls]
  | rem + 1, i, q, r, results, calls, hr => by
    unfold runLoop
    rw [if_neg (by simp [show ({ r with current_iteration := i + 1 } : RunnerS).state =
          r.state from rfl, hr]),
        if_neg (by simp [show ({ r with current_iteration := i + 1 } : RunnerS).state =
          r.state from rfl, hr])]
    cases hs : step calls q with
    | ok result =>
      have hf := hfail calls q
      rw [hs] at hf
      simp only [stepSucceeds] at hf
      simp only [hf, Bool.false_eq_true, if_neg, ite_false]
      rw [show calls + (rem + 1) = calls + 1 + rem by omega]
      exact runLoop_calls_all_fail step hfail rem (i + 1) _ _ _ _ (by exact hr)
    | error e =>
      rw [show calls + (rem + 1) = calls + 1 + rem by omega]
      exact runLoop_calls_all_fail step hfail rem (i + 1) _ _ _ _ (by exact hr)

/-- The loop never writes the stored iteration budget. -/
theorem runLoop_max_preserved (step : Nat → List Char → Except (List Char) ExecResult) :
    ∀ (rem i : Nat) (q : List Char) (r : RunnerS) (results : List ExecResult)
      (calls : Nat), r.state = RunnerState.running →
      (runLoop step rem i q r results calls).1.max_iterations = r.max_iterations
  | 0, i, q, r, results, calls, hr => by
    simp [runLoop, runLoopFinish_max]
  | rem + 1, i, q, r, results, calls, hr => by
    unfold runLoop
    rw [if_neg (by simp [show ({ r with current_iteration := i + 1 } : RunnerS).state =
          r.state from rfl, hr]),
        if_neg (by simp [show ({ r with current_iteration := i + 1 } : RunnerS).state =
          r.state from rfl, hr])]
    cases hs : step calls q with
    | ok result =>
      by_cases hsucc : result.success = true
      · simp only [hsucc, if_pos]
      · simp only [Bool.not_eq_true] at hsucc
        simp only [hsucc, Bool.false_eq_true, if_neg, ite_false]
        exact runLoop_max_preserved step rem (i + 1) _ _ _ _ (by exact hr)
    | error e =>
      exact runLoop_max_preserved step rem (i + 1) _ _ _ _ (by exact hr)

/-- First-success policy: if the first `j` invocations fail (whatever query
they are given) and the `(j+1)`-st succeeds, the loop performs exactly
`j + 1` invocations and reports success. -/
theorem runLoop_first_success (step : Nat → List Char → Except (List Char) ExecResult) :
    ∀ (j rem : Nat), j < rem →
    ∀ (i : Nat) (q : List Char) (r : RunnerS) (results : List ExecResult)
      (calls : Nat), r.state = RunnerState.running →
      (∀ k q', k < j → stepSucceeds (step (calls + k) q') = false) →
      (∀ q', stepSucceeds (step (calls + j) q') = true) →
      (runLoop step rem i q r results calls).2.2 = calls + j + 1 ∧
      (runLoop step rem i q r results calls).2.1.success = true
  | 0, 0, hlt, _, _, _, _, _, _, _, _ => absurd hlt (by omega)
  | 0, rem + 1, _, i, q, r, results, calls, hr, _, hj => by
    unfold runLoop
    rw [if_neg (by simp [show ({ r with current_iteration := i + 1 } : RunnerS).state =
          r.state from rfl, hr]),
        if_neg (by simp [show ({ r with current_iteration := i + 1 } : RunnerS).state =
          r.state from rfl, hr])]
    have hs' := hj q
    rw [Nat.add_zero] at hs'
    cases hs : step calls q with
    | ok result =>
      rw [hs] at hs'
      simp only [stepSucceeds] at hs'
      simp only [hs', if_pos]
      refine ⟨?_, ?_⟩
      · trivial
      · show (format_final_result (results ++ [result])).success = true
        unfold format_final_result
        rw [List.getLast?_concat]
    | error e =>
      rw [hs] at hs'
      simp [stepSucceeds] at hs'
  | j + 1, 0, hlt, _, _, _, _, _, _, _, _ => absurd hlt (by omega)
  | j + 1, rem + 1, hlt, i, q, r, results, calls, hr, hk, hj => by
    unfold runLoop
    rw [if_neg (by simp [show ({ r with current_iteration := i + 1 } : RunnerS).state =
          r.state from rfl, hr]),
        if_neg (by simp [show ({ r with current_iteration := i + 1 } : RunnerS).state =
          r.state from rfl, hr])]
    have h0 := hk 0 q (by omega)
    rw [Nat.add_zero] at h0
    have hk' : ∀ k q', k < j → stepSucceeds (step (calls + 1 + k) q') = false := by
      intro k q' hkj
      rw [show calls + 1 + k = calls + (k + 1) by omega]
      exact hk (k + 1) q' (by omega)
    have hj' : ∀ q', stepSucceeds (step (calls + 1 + j) q') = true := by
      intro q'
      rw [show calls + 1 + j = calls + (j + 1) by omega]
      exact hj q'
    cases hs : step calls q with
    | ok result =>
      rw [hs] at h0
      simp only [stepSucceeds] at h0
      simp only [h0, Bool.false_eq_true, if_neg, ite_false]
      constructor
      · rw [show calls + (j + 1) + 1 = calls + 1 + j + 1 by omega]
        exact (runLoop_first_success step j rem (by omega) (i + 1) _ _ _ _
          (by exact hr) hk' hj').1
      · exact (runLoop_first_success step j rem (by omega) (i + 1) _ _ _ _
          (by exact hr) hk' hj').2
    | error e =>
      constructor
      · rw [show calls + (j + 1) + 1 = calls + 1 + j + 1 by omega]
        exact (runLoop_first_success step j rem (by omega) (i + 1) _ _ _ _
          (by exact hr) hk' hj').1
      · exact (runLoop_first_success step j rem (by omega) (i + 1) _ _ _ _
          (by exact hr) hk' hj').2

/-- The iteration budget a `run(…, max_iterations = mi)` call actually uses:
a truthy argument overwrites the stored budget, `0`/`None` leave it in
place. -/
def effBudget (mi : Option Nat) (r : RunnerS) : Nat :=
  match mi with
  | some n => if n ≠ 0 then n else r.max_iterations
  | none => r.max_iterations

theorem run_calls_le (step : Nat → List Char → Except (List Char) ExecResult)
    (r : RunnerS) (q : List Char) (mi : Option Nat) :
    (AgentRunner.run step r q mi).2.2 ≤ effBudget mi r := by
  unfold AgentRunner.run effBudget
  cases mi with
  | none =>
    dsimp only
    exact le_trans (runLoop_calls_le step r.max_iterations 0 q
      ⟨RunnerState.running, r.max_iterations, 0, []⟩ [] 0 rfl) (by simp)
  | some n =>
    by_cases hn : n ≠ 0
    · dsimp only
      rw [if_pos hn, if_pos hn]
      exact le_trans (runLoop_calls_le step n 0 q
        ⟨RunnerState.running, n, 0, []⟩ [] 0 rfl) (by simp)
    · dsimp only
      rw [if_neg hn, if_neg hn]
      exact le_trans (runLoop_calls_le step r.max_iterations 0 q
        ⟨RunnerState.running, r.max_iterations, 0, []⟩ [] 0 rfl) (by simp)

theorem run_calls_all_fail (step : Nat → List Char → Except (List Char) ExecResult)
    (hfail : ∀ k q', stepSucceeds (step k q') = false)
    (r : RunnerS) (q : List Char) (mi : Option Nat) :
    (AgentRunner.run step r q mi).2.2 = effBudget mi r := by
  unfold AgentRunner.run effBudget
  cases mi with
  | none =>
    dsimp only
    exact (runLoop_calls_all_fail step hfail r.max_iterations 0 q
      ⟨RunnerState.running, r.max_iterations, 0, []⟩ [] 0 rfl).trans (by simp)
  | some n =>
    by_cases hn : n ≠ 0
    · dsimp only
      rw [if_pos hn, if_pos hn]
      exact (runLoop_calls_all_fail step hfail n 0 q
        ⟨RunnerState.running, n, 0, []⟩ [] 0 rfl).trans (by simp)
    · dsimp only
      rw [if_neg hn, if_neg hn]
      exact (runLoop_calls_all_fail step hfail r.max_iterations 0 q
        ⟨RunnerState.running, r.max_iterations, 0, []⟩ [] 0 rfl).trans (by simp)

theorem run_max (step : Nat → List Char → Except (List Char) ExecResult)
    (r : RunnerS) (q : List Char) (mi : Option Nat) :
    (AgentRunner.run step r q mi).1.max_iterations = effBudget mi r := by
  unfold AgentRunner.run effBudget
  cases mi with
  | none =>
    dsimp only
    exact runLoop_max_preserved step r.max_iterations 0 q
      ⟨RunnerState.running, r.max_iterations, 0, []⟩ [] 0 rfl
  | some n =>
    by_cases hn : n ≠ 0
    · dsimp only
      rw [if_pos hn, if_pos hn]
      exact runLoop_max_preserved step n 0 q ⟨RunnerState.running, n, 0, []⟩ [] 0 rfl
    · dsimp only
      rw [if_neg hn, if_neg hn]
      exact runLoop_max_preserved step r.max_iterations 0 q
        ⟨RunnerState.running, r.max_iterations, 0, []⟩ [] 0 rfl

theorem run_first_success (step : Nat → List Char → Except (List Char) ExecResult)
    (r : RunnerS) (q : List Char) (mi : Option Nat) (j : Nat)
    (hj : j < effBudget mi r)
    (hk : ∀ k q', k < j → stepSucceeds (step k q') = false)
    (hs : ∀ q', stepSucceeds (step j q') = true) :
    (AgentRunner.run step r q mi).2.2 = j + 1 ∧
    (AgentRunner.run step r q mi).2.1.success = true := by
  unfold AgentRunner.run
  unfold effBudget at hj
  have hk0 : ∀ k q', k < j → stepSucceeds (step (0 + k) q') = false := by
    intro k q' h
    rw [Nat.zero_add]
    exact hk k q' h
  have hs0 : ∀ q', stepSucceeds (step (0 + j) q') = true := by
    intro q'
    rw [Nat.zero_add]
    exact hs q'
  cases mi with
  | none =>
    dsimp only at hj ⊢
    have h := runLoop_first_success step j r.max_iterations hj 0 q
      ⟨RunnerState.running, r.max_iterations, 0, []⟩ [] 0 rfl hk0 hs0
    exact ⟨h.1.trans (by simp), h.2⟩
  | some n =>
    by_cases hn : n ≠ 0
    · dsimp only at hj ⊢
      rw [if_pos hn] at hj ⊢
      have h := runLoop_first_success step j n hj 0 q
        ⟨RunnerState.running, n, 0, []⟩ [] 0 rfl hk0 hs0
      exact ⟨h.1.trans (by simp), h.2⟩
    · dsimp only at hj ⊢
      rw [if_neg hn] at hj ⊢
      have h := runLoop_first_success step j r.max_iterations hj 0 q
        ⟨RunnerState.running, r.max_iterations, 0, []⟩ [] 0 rfl hk0 hs0
      exact ⟨h.1.trans (by simp), h.2⟩

/-- Claim C2 — counterexample.  "For every value N passed as
max_iterations, run invokes the step at most N times" fails at `N = 0`:
`if max_iterations:` is Python truthiness, so `0` leaves the stored default
budget of 5 in effect and an always-failing agent is stepped 5 times, not
at most 0 times. -/
theorem C2_run_budget_counterexample :
    (AgentRunner.run alwaysFailStep RunnerS.init ("q".data) (some 0)).2.2 = 5 ∧
    ¬ ((AgentRunner.run alwaysFailStep RunnerS.init ("q".data) (some 0)).2.2 ≤ 0) := by
  have h := run_calls_all_fail alwaysFailStep (fun _ _ => rfl) RunnerS.init
    ("q".data) (some 0)
  have h5 : effBudget (some 0) RunnerS.init = 5 := rfl
  rw [h5] at h
  exact ⟨h, by rw [h]; omega⟩

/-- Claim C2 (amended): for every *truthy* budget `N ≥ 1` passed as
`max_iterations` (for `N = 0`, Python truthiness leaves the previously
stored budget in effect — see C10), a single `run` invokes the Agent
Execution Step at most `N` times; and it stops at the first success: if the
first `j` attempts fail and the `(j+1)`-st succeeds, exactly `j + 1`
invocations happen — in particular exactly one when the first attempt
succeeds, even when `N > 1`. -/
theorem C2_run_budget_amended (step : Nat → List Char → Except (List Char) ExecResult)
    (q : List Char) (N : Nat) (hN : 1 ≤ N) :
    (AgentRunner.run step RunnerS.init q (some N)).2.2 ≤ N ∧
    (∀ j, j < N →
      (∀ k q', k < j → stepSucceeds (step k q') = false) →
      (∀ q', stepSucceeds (step j q') = true) →
      (AgentRunner.run step RunnerS.init q (some N)).2.2 = j + 1 ∧
      (AgentRunner.run step RunnerS.init q (some N)).2.1.success = true) := by
  have hb : effBudget (some N) RunnerS.init = N := by
    unfold effBudget
    dsimp only
    rw [if_pos (by omega : N ≠ 0)]
  constructor
  · have h := run_calls_le step RunnerS.init q (some N)
    rwa [hb] at h
  · intro j hj hk hs
    exact run_first_success step RunnerS.init q (some N) j (by rw [hb]; exact hj) hk hs

/-- A step oracle that succeeds immediately. -/
def firstOkStep : Nat → List Char → Except (List Char) ExecResult :=
  fun _ _ =>
    Except.ok ⟨true, some ("SELECT 1".data), none, none, none, some false, none, none⟩

/-- Witness for C2 (amended): with budget 3 and a first attempt that
succeeds, the step is invoked exactly once and the run reports success. -/
theorem C2_run_budget_amended_witness :
    (AgentRunner.run firstOkStep RunnerS.init ("q".data) (some 3)).2.2 = 1 ∧
    (AgentRunner.run firstOkStep RunnerS.init ("q".data) (some 3)).2.1.success = true :=
  (C2_run_budget_amended firstOkStep ("q".data) 3 (by decide)).2 0 (by decide)
    (fun k _ hk => absurd hk (Nat.not_lt_zero k)) (fun _ => rfl)

/-- Claim C10: a truthy `max_iterations = N` permanently overwrites the
stored budget (for any step oracle), so a later `run` that omits the
argument also steps up to `N` times; while `max_iterations = 0` (or `None`)
leaves the stored budget — initially 5 — in effect, so such a call still
invokes the step up to (here: exactly) that previous budget rather than
zero times. -/
theorem C10_max_iterations_frame_effect (q q2 : List Char) (N : Nat) (hN : 1 ≤ N) :
    (∀ step, (AgentRunner.run step RunnerS.init q (some N)).1.max_iterations = N) ∧
    (AgentRunner.run alwaysFailStep
      ((AgentRunner.run alwaysFailStep RunnerS.init q (some N)).1) q2 none).2.2 = N ∧
    (AgentRunner.run alwaysFailStep RunnerS.init q (some 0)).2.2 = 5 ∧
    (AgentRunner.run alwaysFailStep RunnerS.init q none).2.2 = 5 ∧
    RunnerS.init.max_iterations = 5 := by
  have hfail : ∀ k q', stepSucceeds (alwaysFailStep k q') = false := fun _ _ => rfl
  have hb : effBudget (some N) RunnerS.init = N := by
    unfold effBudget
    dsimp only
    rw [if_pos (by omega : N ≠ 0)]
  refine ⟨?_, ?_, ?_, ?_, rfl⟩
  · intro step
    rw [run_max step RunnerS.init q (some N), hb]
  · rw [run_calls_all_fail alwaysFailStep hfail _ q2 none]
    unfold effBudget
    dsimp only
    rw [run_max alwaysFailStep RunnerS.init q (some N), hb]
  · rw [run_calls_all_fail alwaysFailStep hfail _ q (some 0)]
    rfl
  · rw [run_calls_all_fail alwaysFailStep hfail _ q none]
    rfl

/-- Witness for C10 at `N = 2`: the stored budget is overwritten to 2, a
later argument-less run with an always-failing agent steps exactly twice,
and a `max_iterations = 0` run steps 5 times. -/
theorem C10_max_iterations_frame_effect_witness :
    (AgentRunner.run alwaysFailStep RunnerS.init ("a".data) (some 2)).1.max_iterations = 2 ∧
    (AgentRunner.run alwaysFailStep
      ((AgentRunner.run alwaysFailStep RunnerS.init ("a".data) (some 2)).1)
      ("b".data) none).2.2 = 2 ∧
    (AgentRunner.run alwaysFailStep RunnerS.init ("a".data) (some 0)).2.2 = 5 :=
  ⟨(C10_max_iterations_frame_effect ("a".data) ("b".data) 2 (by decide)).1 alwaysFailStep,
   (C10_max_iterations_frame_effect ("a".data) ("b".data) 2 (by decide)).2.1,
   (C10_max_iterations_frame_effect ("a".data) ("b".data) 2 (by decide)).2.2.1⟩

/-- Claim C3 — counterexample.  `AgentOrchestrator.reset` never writes the
runner's state: starting from a runner stopped by `stop()`, the state after
`reset()` is still `STOPPED`, not `READY` as claimed. -/
theorem C3_reset_counterexample :
    (AgentOrchestrator.reset
      ⟨SQLAgentS.init, AgentRunner.stop RunnerS.init⟩).runner.state ≠
      RunnerState.ready := by
  decide

/-- Claim C3 (amended): after `reset()` the agent state is `Idle` and the
memory (messages, context, execution history) is empty, and the runner's
execution log is cleared; but the runner's state is left exactly as it was
(so it equals `Ready` only when it already was `Ready`). -/
theorem C3_reset_amended (o : AgentOrchestrator) :
    (AgentOrchestrator.reset o).agent.state = AgState.idle ∧
    (AgentOrchestrator.reset o).agent.memory.messages = [] ∧
    (AgentOrchestrator.reset o).agent.memory.context = [] ∧
    (AgentOrchestrator.reset o).agent.memory.execution_history = [] ∧
    (AgentOrchestrator.reset o).runner.execution_log = [] ∧
    (AgentOrchestrator.reset o).runner.state = o.runner.state :=
  ⟨rfl, rfl, rfl, rfl, rfl, rfl⟩

end T2Sql
